import Mathlib

/-!
Verification development for the markdown include expander
(`src/source/includeSettings.ts`): a recursive, cycle-safe text-inclusion
engine.  The TypeScript functions `sliceLines`, `formatQuote`, `replace`
and `execute` are embedded shallowly below, together with the JavaScript
string primitives they rely on (`String.prototype.split`,
`Array.prototype.slice`, `parseInt`, first-occurrence
`String.prototype.replace`, `trim`) and the two directive regular
expressions, hand-compiled to deterministic matchers.
-/

namespace MPI

/-- JavaScript numbers restricted to the integral values that occur in this
program; `none` models `NaN` (produced by `parseInt` on a non-numeric
string and propagated by arithmetic). -/
abbrev JSNum := Option Int

/-- `NaN`-propagating subtraction of a constant. -/
def jsSub (a : JSNum) (b : Int) : JSNum :=
  match a with
  | none => none
  | some x => some (x - b)

/-- `NaN`-propagating addition of a constant. -/
def jsAdd (a : JSNum) (b : Int) : JSNum :=
  match a with
  | none => none
  | some x => some (x + b)

/-- `x > 0` on a JavaScript number: false for `NaN`. -/
def jsGtZero (a : JSNum) : Bool :=
  match a with
  | none => false
  | some x => 0 < x

/-- `ToIntegerOrInfinity` as used by `Array.prototype.slice`: `NaN`
becomes `0`. -/
def jsToInt (a : JSNum) : Int :=
  match a with
  | none => 0
  | some x => x

/-- The JavaScript `\s` character class, restricted to the characters that
can occur in this program's inputs (ASCII whitespace and NBSP). -/
def isJsWs (c : Char) : Bool :=
  c = ' ' || c = '\t' || c = '\n' || c = '\r' || c = '\x0b' || c = '\x0c' || c = '\xa0'

/-- ASCII decimal digit. -/
def isDigitCh (c : Char) : Bool :=
  '0' ≤ c && c ≤ '9'

/-- The JavaScript `.` regex class (no `s` flag): everything except line
terminators. -/
def isDotCh (c : Char) : Bool :=
  !(c = '\n' || c = '\r' || c = '\u2028' || c = '\u2029')

/-- `String.prototype.trim`. -/
def jsTrim (s : String) : String :=
  String.mk (((s.data.dropWhile isJsWs).reverse.dropWhile isJsWs).reverse)

/-- Digit run to a natural number. -/
def digitsToNat (cs : List Char) : Nat :=
  cs.foldl (fun a c => a * 10 + (c.toNat - '0'.toNat)) 0

/-- JavaScript `parseInt` for the decimal strings this program feeds it
(captures of `\d+`): leading whitespace and an optional sign are skipped,
the leading digit run is parsed, trailing garbage is ignored; `NaN`
(`none`) when no digit is found.  Radix prefixes are not modelled: no call
site can pass one. -/
def jsParseInt (s : String) : JSNum :=
  let cs := s.data.dropWhile isJsWs
  let signed : Bool × List Char :=
    match cs with
    | '-' :: r => (true, r)
    | '+' :: r => (false, r)
    | _ => (false, cs)
  let digits := signed.2.takeWhile isDigitCh
  if digits.isEmpty then none
  else some ((if signed.1 then (-1 : Int) else 1) * (digitsToNat digits : Int))

/-- `Array.prototype.slice(start, end)` with JavaScript index conversion:
`NaN` becomes `0`, negative indices count from the end, both bounds are
clamped to `[0, length]`. -/
def jsSlice (xs : List α) (a b : JSNum) : List α :=
  let len : Int := xs.length
  let ia := jsToInt a
  let ib := jsToInt b
  let k : Int := if ia < 0 then max (len + ia) 0 else min ia len
  let f : Int := if ib < 0 then max (len + ib) 0 else min ib len
  (xs.drop k.toNat).take (f - k).toNat

/-- `Array.prototype.slice(start)` (one-argument form: end defaults to the
length). -/
def jsSlice1 (xs : List α) (a : JSNum) : List α :=
  jsSlice xs a (some (xs.length : Int))

/-- Split a character list at every occurrence of `sep`; like JavaScript
`split` with a one-character string, the result is never empty and keeps
empty segments. -/
def splitChGo (sep : Char) : List Char → List Char → List (List Char)
  | [], cur => [cur.reverse]
  | c :: r, cur =>
    if c = sep then cur.reverse :: splitChGo sep r []
    else splitChGo sep r (c :: cur)

/-- `s.split(sep)` for a one-character separator. -/
def splitOnChar (sep : Char) (s : String) : List String :=
  (splitChGo sep s.data []).map String.mk

/-- Strip one trailing `'\r'`, as the regex `/\r?\n/` does with the
carriage return preceding each `'\n'`. -/
def stripCR (s : String) : String :=
  match s.data.getLast? with
  | some '\r' => String.mk s.data.dropLast
  | _ => s

/-- `content.split(/\r?\n/)`: split at every `'\n'` and drop one `'\r'`
sitting immediately before it. -/
def splitLinesJS (s : String) : List String :=
  (splitOnChar '\n' s).map stripCR

/-- Core loop of `line.split(/\s+/)`: `skipping` is true while inside a
whitespace run; the current segment is accumulated reversed in `cur`. -/
def splitWsGo : Bool → List Char → List Char → List (List Char)
  | _, [], cur => [cur.reverse]
  | skipping, c :: rest, cur =>
    if isJsWs c then
      if skipping then splitWsGo true rest []
      else cur.reverse :: splitWsGo true rest []
    else splitWsGo false rest (c :: cur)

/-- `line.split(/\s+/)` including JavaScript's empty leading segment for a
string starting with whitespace and empty trailing segment for one ending
with whitespace. -/
def jsSplitWs (s : String) : List String :=
  (splitWsGo false s.data []).map String.mk

/-- First-occurrence replacement on character lists:
`String.prototype.replace` with a plain-string pattern.  (`$`-patterns in
the replacement are not modelled; the replacements used are file paths.) -/
def replFirstCh (pat rep : List Char) : List Char → List Char
  | [] => if pat.isPrefixOf ([] : List Char) then rep else []
  | c :: rest =>
    if pat.isPrefixOf (c :: rest) then rep ++ (c :: rest).drop pat.length
    else c :: replFirstCh pat rep rest

/-- `s.replace(pat, rep)` for a plain-string `pat`: only the first
occurrence is replaced; `s` is returned unchanged when `pat` does not
occur. -/
def jsReplace (s pat rep : String) : String :=
  String.mk (replFirstCh pat.data rep.data s.data)

/-- Truthiness of an optional string: `undefined` and `""` are falsy. -/
def jsTruthy (s : Option String) : Bool :=
  match s with
  | none => false
  | some t => !t.data.isEmpty

/-- `a || b` on an optional string against a default (empty string is
falsy, so it also selects the default). -/
def jsOrStr (s : Option String) (d : String) : String :=
  match s with
  | none => d
  | some t => if t.data.isEmpty then d else t

/-- ASCII `String.prototype.toLowerCase` (the only strings lowered are
regex captures of `quote`/`noquote` letters). -/
def jsToLower (s : String) : String :=
  String.mk (s.data.map Char.toLower)

/-- `sliceLines` from `src/source/includeSettings.ts`: extract the lines
(and, on the boundary lines, the words) that a `#L` range spec selects. -/
def sliceLines (content : String) (startSpec endSpec : Option String) : String :=
  if !jsTruthy startSpec then content
  else
    let s := startSpec.getD ""
    let lines := splitLinesJS content
    let startParts := splitOnChar '.' s
    let startLine : JSNum := jsSub (jsParseInt (startParts.headD "")) 1
    let startWord : JSNum :=
      if startParts.length > 1 then jsParseInt (startParts.getD 1 "") else some 0
    let endPair : JSNum × Option JSNum :=
      if jsTruthy endSpec then
        let endParts := splitOnChar '.' (endSpec.getD "")
        (jsParseInt (endParts.headD ""),
         if endParts.length > 1 then some (jsParseInt (endParts.getD 1 "")) else none)
      else (jsAdd startLine 1, none)
    let endLine := endPair.1
    let endWord := endPair.2
    let selectedLines := jsSlice lines startLine endLine
    if selectedLines.isEmpty then ""
    else
      if jsGtZero startWord || endWord.isSome then
        if selectedLines.length == 1 then
          let words := jsSplitWs (selectedLines.headD "")
          let wordEnd : JSNum :=
            match endWord with
            | some w => w
            | none => some (words.length : Int)
          String.intercalate " " (jsSlice words startWord wordEnd)
        else
          let words := jsSplitWs (selectedLines.headD "")
          let sl1 := String.intercalate " " (jsSlice1 words startWord) :: selectedLines.tail
          let sl2 :=
            match endWord with
            | some w =>
              if selectedLines.length > 1 then
                let lastWords := jsSplitWs (sl1.getLastD "")
                sl1.dropLast ++ [String.intercalate " " (jsSlice lastWords (some 0) w)]
              else sl1
            | none => sl1
          String.intercalate "\n" sl2
      else String.intercalate "\n" selectedLines

/-!  ### Directive matchers

The two patterns from `src/source/includeSettings.ts`:

  `COMMONMARK_PATTERN =
    /\:(?:\[([^|\]]*)\|?([^\]]*)\])?\(([^)#]+)(?:#L(\d+(?:\.\d+)?)(?:-(\d+(?:\.\d+)?))?)?\)\s*(?:\{\s*(noquote|quote)\s*\})?/i`

  `MARKDOWN_IT_PATTERN =
    /\!{3}\s*include\s*\(\s*(.+?)(?:\s*#L(\d+(?:\.\d+)?)(?:-(\d+(?:\.\d+)?))?)?\s*\)\s*(?:\{\s*(noquote|quote)\s*\})?\s*\!{3}/i`

hand-compiled to deterministic matchers.  Both patterns are
backtracking-free apart from the lazy `(.+?)`, which is implemented as the
shortest-first search it denotes: every greedy sub-pattern here is a
character class that excludes the character the following pattern element
requires, so giving back characters can never turn a failure into a
success, and each optional group either matches or is skipped with the
cursor unmoved. -/

/-- A successful `exec` of one of the two directive patterns: start offset
of the match, length of `regexResult[0]`, and the capture groups the
resolver consumes (target reference, start spec, end spec, quote
override). -/
structure DirectiveMatch where
  index : Nat
  length : Nat
  target : String
  startSpec : Option String
  endSpec : Option String
  quoteSpec : Option String
  deriving DecidableEq, Repr

/-- Payload of a match attempt at a fixed position: characters consumed
and the four consumed capture groups. -/
abbrev MatchPart := Nat × String × Option String × Option String × Option String

/-- Case-insensitive match of the lowercase word `w` at the head of `s`,
returning the matched characters in original case and the rest. -/
def matchWordCI : List Char → List Char → List Char → Option (List Char × List Char)
  | [], s, acc => some (acc.reverse, s)
  | _ :: _, [], _ => none
  | wc :: wr, c :: sr, acc =>
    if c.toLower = wc then matchWordCI wr sr (c :: acc) else none

/-- `\d+(?:\.\d+)?`: a line spec, optionally with a word part.  Returns the
matched characters and the rest; the optional `.word` part is taken only
when a digit follows the dot (regex backtracking on the optional group). -/
def parseSpecTok (s : List Char) : Option (List Char × List Char) :=
  let d1 := s.takeWhile isDigitCh
  let r1 := s.dropWhile isDigitCh
  if d1.isEmpty then none
  else
    match r1 with
    | '.' :: r2 =>
      let d2 := r2.takeWhile isDigitCh
      if d2.isEmpty then some (d1, r1)
      else some (d1 ++ '.' :: d2, r2.dropWhile isDigitCh)
    | _ => some (d1, r1)

/-- `#L(\d+(?:\.\d+)?)(?:-(\d+(?:\.\d+)?))?`: the range suffix.  `none`
when the group cannot match here (the caller then treats the optional
group as empty). -/
def hashTok (s : List Char) : Option ((List Char × Option (List Char)) × List Char) :=
  match s with
  | '#' :: r1 =>
    match r1 with
    | l :: r2 =>
      if l.toLower = 'l' then
        match parseSpecTok r2 with
        | none => none
        | some (g4, r3) =>
          match r3 with
          | '-' :: r4 =>
            match parseSpecTok r4 with
            | some (g5, r5) => some ((g4, some g5), r5)
            | none => some ((g4, none), r3)
          | _ => some ((g4, none), r3)
      else none
    | [] => none
  | _ => none

/-- `\{\s*(noquote|quote)\s*\}`: the quote-override group.  `none` when it
cannot match here (the optional group is then empty, cursor unmoved).
`noquote` is tried first, as in the pattern's alternation; the capture is
returned in its original case. -/
def quoteTok (s : List Char) : Option (List Char × List Char) :=
  match s with
  | '{' :: r1 =>
    let r2 := r1.dropWhile isJsWs
    let alt : Option (List Char × List Char) :=
      match matchWordCI "noquote".data r2 [] with
      | some p => some p
      | none => matchWordCI "quote".data r2 []
    match alt with
    | none => none
    | some (cap, r3) =>
      match r3.dropWhile isJsWs with
      | '}' :: r5 => some (cap, r5)
      | _ => none
  | _ => none

/-- `\[([^|\]]*)\|?([^\]]*)\]`: the optional label group of the
commonmark pattern.  Its two captures are parsed but never consumed by the
resolver, so only the rest of the input is returned.  `none` when no `]`
follows (the group is then empty, and the required `\(` fails against
`[`, so the whole match attempt fails). -/
def bracketTok (s : List Char) : Option (List Char) :=
  match s with
  | '[' :: r1 =>
    let r2 := (r1.dropWhile (fun c => !(c = '|' || c = ']')))
    let r3 := match r2 with
      | '|' :: t => t
      | _ => r2
    match r3.dropWhile (fun c => !(c = ']')) with
    | ']' :: r5 => some r5
    | _ => none
  | _ => none

/-- Attempt to match `COMMONMARK_PATTERN` at the head of `s`; returns the
consumed length and captures 3–6. -/
def cmMatchAt (s : List Char) : Option MatchPart :=
  match s with
  | ':' :: r1 =>
    let r2o : Option (List Char) :=
      match r1 with
      | '[' :: _ => bracketTok r1
      | _ => some r1
    match r2o with
    | none => none
    | some r2 =>
      match r2 with
      | '(' :: r3 =>
        let g3 := r3.takeWhile (fun c => !(c = ')' || c = '#'))
        let r4 := r3.dropWhile (fun c => !(c = ')' || c = '#'))
        if g3.isEmpty then none
        else
          let hres : Option (List Char × Option (List Char)) × List Char :=
            match hashTok r4 with
            | some (gs, r) => (some gs, r)
            | none => (none, r4)
          match hres.2 with
          | ')' :: r6 =>
            let r7 := r6.dropWhile isJsWs
            let qres : Option (List Char) × List Char :=
              match quoteTok r7 with
              | some (cap, r) => (some cap, r)
              | none => (none, r7)
            some (s.length - qres.2.length, String.mk g3,
              hres.1.map (fun p => String.mk p.1),
              hres.1.bind (fun p => p.2.map String.mk),
              qres.1.map String.mk)
          | _ => none
      | _ => none
  | _ => none

/-- The tail of `MARKDOWN_IT_PATTERN` after the lazy target:
`(?:\s*#L…)?\s*\)\s*(?:\{\s*(noquote|quote)\s*\})?\s*\!{3}`. -/
def mdRest (s : List Char) : Option ((Option String × Option String × Option String) × List Char) :=
  let hres : Option (List Char × Option (List Char)) × List Char :=
    match hashTok (s.dropWhile isJsWs) with
    | some (gs, r) => (some gs, r)
    | none => (none, s)
  match hres.2.dropWhile isJsWs with
  | ')' :: r3 =>
    let r4 := r3.dropWhile isJsWs
    let qres : Option (List Char) × List Char :=
      match quoteTok r4 with
      | some (cap, r) => (some cap, r)
      | none => (none, r4)
    match qres.2.dropWhile isJsWs with
    | '!' :: '!' :: '!' :: r7 =>
      some ((hres.1.map (fun p => String.mk p.1),
             hres.1.bind (fun p => p.2.map String.mk),
             qres.1.map String.mk), r7)
    | _ => none
  | _ => none

/-- The lazy `(.+?)` of the markdown-it pattern: grow the target one
character at a time (shortest first, each character restricted by the
regex `.` class) until the rest of the pattern matches. -/
def mdTarget (acc : List Char) : List Char → Option (String × (Option String × Option String × Option String) × List Char)
  | [] => none
  | c :: r =>
    if isDotCh c then
      match mdRest r with
      | some (caps, rem) => some (String.mk (acc ++ [c]), caps, rem)
      | none => mdTarget (acc ++ [c]) r
    else none

/-- Attempt to match `MARKDOWN_IT_PATTERN` at the head of `s`; returns the
consumed length and captures 1–4. -/
def mdMatchAt (s : List Char) : Option MatchPart :=
  match s with
  | '!' :: '!' :: '!' :: r1 =>
    match matchWordCI "include".data (r1.dropWhile isJsWs) [] with
    | none => none
    | some (_, r3) =>
      match r3.dropWhile isJsWs with
      | '(' :: r5 =>
        match mdTarget [] (r5.dropWhile isJsWs) with
        | some (tgt, (g2, g3, g4), rem) =>
          some (s.length - rem.length, tgt, g2, g3, g4)
        | none => none
      | _ => none
  | _ => none

/-- Leftmost search: try a match at every position, earliest first
(`RegExp.prototype.exec` without the `g` flag always searches from the
start of the string). -/
def scanFrom (matchAt : List Char → Option MatchPart) : List Char → Option (Nat × MatchPart)
  | [] =>
    match matchAt [] with
    | some a => some (0, a)
    | none => none
  | c :: t =>
    match matchAt (c :: t) with
    | some a => some (0, a)
    | none =>
      match scanFrom matchAt t with
      | some (i, a) => some (i + 1, a)
      | none => none

/-- `COMMONMARK_PATTERN.exec(content)`, reduced to the fields the resolver
consumes (captures 3, 4, 5, 6). -/
def cmExec (content : String) : Option DirectiveMatch :=
  (scanFrom cmMatchAt content.data).map
    (fun p => ⟨p.1, p.2.1, p.2.2.1, p.2.2.2.1, p.2.2.2.2.1, p.2.2.2.2.2⟩)

/-- `MARKDOWN_IT_PATTERN.exec(content)`, reduced to the fields the
resolver consumes (captures 1, 2, 3, 4). -/
def mdExec (content : String) : Option DirectiveMatch :=
  (scanFrom mdMatchAt content.data).map
    (fun p => ⟨p.1, p.2.1, p.2.2.1, p.2.2.2.1, p.2.2.2.2.1, p.2.2.2.2.2⟩)

example : cmExec ":(a.md)" = some ⟨0, 7, "a.md", none, none, none⟩ := by decide
example : cmExec "xx :(a.md#L2-3.1){quote} y" =
    some ⟨3, 21, "a.md", some "2", some "3.1", some "quote"⟩ := by decide
example : cmExec ":[lbl|alt](dir/f.md#L1.2)" =
    some ⟨0, 25, "dir/f.md", some "1.2", none, none⟩ := by decide
example : cmExec "no directive here" = none := by decide
example : cmExec ":(a.md) {1}" = some ⟨0, 8, "a.md", none, none, none⟩ := by decide
example : mdExec "!!! include (a.md) !!!" = some ⟨0, 22, "a.md", none, none, none⟩ := by decide
example : mdExec "x !!!INCLUDE( a.md#L2 ){ noquote } !!! y" =
    some ⟨2, 36, "a.md", some "2", none, some "noquote"⟩ := by decide
example : mdExec "!!! include (a#Lx) !!!" = some ⟨0, 22, "a#Lx", none, none, none⟩ := by decide
example : mdExec "!!! include () !!!" = none := by decide

/-!  ### Settings, environment, quote formatter, resolver -/

/-- The `IncludeSettings` interface (`src/source/includeSettings.ts`);
every field is optional, as in TypeScript. -/
structure IncludeSettings where
  commonmarkRegex : Option Bool := none
  markdownItRegex : Option Bool := none
  notFoundMessage : Option String := none
  circularMessage : Option String := none
  quoteFormatting : Option Bool := none
  quoteIncludeSource : Option Bool := none
  quoteSourceLabel : Option String := none

/-- The settings object `{ }`: every option takes its default. -/
def defaultSettings : IncludeSettings := {}

def DEFAULT_NOT_FOUND_MESSAGE : String := "File \x27\x7b\x7bFILE\x7d\x7d\x27 not found"
def DEFAULT_CIRCULAR_MESSAGE : String :=
  "Circular reference between \x27\x7b\x7bFILE\x7d\x7d\x27 and \x27\x7b\x7bPARENT\x7d\x7d\x27"
def DEFAULT_QUOTE_SOURCE_LABEL : String := "Source"

/-- The placeholder `{{FILE}}` of the message templates. -/
def FILE_PLACEHOLDER : String := "\x7b\x7bFILE\x7d\x7d"

/-- The placeholder `{{PARENT}}` of the circular message template. -/
def PARENT_PLACEHOLDER : String := "\x7b\x7bPARENT\x7d\x7d"

/-- The external collaborators the core requires, at their interface
(spec §1): platform path resolution (`path.resolve`, `path.dirname`,
`path.basename`) and the filesystem (`fs.existsSync`,
`fs.readFileSync`). -/
structure Env where
  resolvePath : String → String → String
  dirname : String → String
  basename : String → String
  fileExists : String → Bool
  readFile : String → String

/-- The result splice of `replace`:
`parentContent.slice(0, index) + child + parentContent.slice(index + length, parentContent.length)`.
The matcher guarantees `index + length ≤ parentContent.length`, where
JavaScript `slice` and `take`/`drop` agree. -/
def spliceAt (s : String) (idx len : Nat) (child : String) : String :=
  String.mk (s.data.take idx ++ child.data ++ s.data.drop (idx + len))

/-- The column loop of `formatQuote`: starting from `charPos`, walk the
words while `i < wordOffset` (and words remain), adding each word's length
and — unless this is the last consumed word and it is empty — one
separating space. -/
def citeColGo (wordOffset : Int) : List String → Int → Int → Int
  | [], _, charPos => charPos
  | word :: rest, i, charPos =>
    if i < wordOffset then
      citeColGo wordOffset rest (i + 1)
        (charPos + (word.length : Int) +
          (if i < wordOffset - 1 || word.length > 0 then 1 else 0))
    else charPos

/-- The line/column computation of `formatQuote`: both default to `"1"`;
a truthy start spec supplies the line number verbatim, and when it also
carries a word part and the original content is truthy, the column is
recomputed against the original content's line by `citeColGo`. -/
def citePosition (startLine : Option String) (originalContent : Option String) :
    String × String :=
  if !jsTruthy startLine then ("1", "1")
  else
    let startParts := splitOnChar '.' (startLine.getD "")
    let lineNumber := startParts.headD ""
    if startParts.length > 1 && jsTruthy originalContent then
      let wordOffset := jsParseInt (startParts.getD 1 "")
      let lineIndex := jsSub (jsParseInt lineNumber) 1
      let lines := splitLinesJS (originalContent.getD "")
      match lineIndex with
      | none => (lineNumber, "1")
      | some li =>
        if 0 ≤ li && li < (lines.length : Int) then
          let line := lines.getD li.toNat ""
          let words := jsSplitWs line
          match wordOffset with
          | none => (lineNumber, "1")
          | some w => (lineNumber, toString (citeColGo w words 0 1))
        else (lineNumber, "1")
    else (lineNumber, "1")

/-- `formatQuote` from `src/source/includeSettings.ts`: prefix every line
with a block-quote marker (`>` alone for a line that is empty after
trimming, `> ` + line otherwise) and, when `includeSource`, append a
blank quoted line and a citation link built from the source path and the
position computed by `citePosition`. -/
def formatQuote (env : Env) (content sourcePath sourceLabel : String)
    (includeSource : Bool) (startLine : Option String)
    (originalContent : Option String) : String :=
  let quoted := String.intercalate "\n"
    ((splitLinesJS content).map
      (fun line => if (jsTrim line).data.isEmpty then ">" else "> " ++ line))
  if !includeSource then quoted
  else
    let filename := env.basename sourcePath
    let normalizedPath := String.mk
      (sourcePath.data.map (fun c => if c = '\\' then '/' else c))
    let pos := citePosition startLine originalContent
    let vsCodeUri := "vscode://file/" ++ normalizedPath ++ ":" ++ pos.1 ++ ":" ++ pos.2
    let sourceText := "*" ++ sourceLabel ++ ": [" ++ filename ++ "](<" ++ vsCodeUri ++ ">)*"
    quoted ++ "\n> \n> " ++ sourceText

/-- `replace` from `src/source/includeSettings.ts`, parameterised by the
recursive expansion of the child (`execute`, passed in by the caller so
the recursion is tied to the fuel of `execute`): resolve the target, and
splice in either the filled not-found template, the filled circular
template, or the sliced / recursively expanded / optionally quoted child
content.  `idx`/`len` are `regexResult.index` and
`regexResult[0].length`. -/
def replaceDirective (childExpand : String → String → List String → String)
    (env : Env) (settings : IncludeSettings)
    (idx len : Nat) (parentContent parentFolder parentFile childName : String)
    (notFoundMessage circularMessage : String) (processedFiles : List String)
    (startLine endLine quoteOverride : Option String) : String :=
  let childFile := env.resolvePath parentFolder childName
  let childContent :=
    if env.fileExists childFile = false then
      jsReplace notFoundMessage FILE_PLACEHOLDER childFile
    else if processedFiles.contains childFile then
      jsReplace (jsReplace circularMessage FILE_PLACEHOLDER childFile)
        PARENT_PLACEHOLDER parentFile
    else
      let originalContent := env.readFile childFile
      let c1 := sliceLines originalContent startLine endLine
      let c2 := childExpand c1 childFile processedFiles
      let globalQuote := settings.quoteFormatting.getD false
      let includeSource := settings.quoteIncludeSource.getD true
      let sourceLabel := jsOrStr settings.quoteSourceLabel DEFAULT_QUOTE_SOURCE_LABEL
      let shouldQuote :=
        match quoteOverride with
        | some o => jsToLower o == "quote"
        | none => globalQuote
      if shouldQuote then
        formatQuote env c2 childFile sourceLabel includeSource startLine
          (some originalContent)
      else c2
  spliceAt parentContent idx len childContent

/-- One pattern's scan-and-splice loop of `execute`
(`while ((regexResult = PATTERN.exec(parentContent))) { … }`), with fuel
for the iteration count; the source loop terminates because the file tree
is finite, and every theorem below instantiates ample fuel. -/
def includeLoop (pat : String → Option DirectiveMatch)
    (childExpand : String → String → List String → String)
    (env : Env) (settings : IncludeSettings) :
    Nat → String → String → String → List String → String
  | 0, parentContent, _, _, _ => parentContent
  | fuel + 1, parentContent, parentFolder, parentFile, processedFiles =>
    match pat parentContent with
    | none => parentContent
    | some m =>
      includeLoop pat childExpand env settings fuel
        (replaceDirective childExpand env settings m.index m.length
          parentContent parentFolder parentFile (jsTrim m.target)
          (jsOrStr settings.notFoundMessage DEFAULT_NOT_FOUND_MESSAGE)
          (jsOrStr settings.circularMessage DEFAULT_CIRCULAR_MESSAGE)
          processedFiles m.startSpec m.endSpec m.quoteSpec)
        parentFolder parentFile processedFiles

/-- `execute` from `src/source/includeSettings.ts`, with fuel bounding the
recursion depth (the source recursion terminates because the
processed-files chain grows strictly along every branch): copy the
processed list and push the parent's own path, then run the commonmark
loop and the markdown-it loop in that order, each only if its syntax is
enabled (both default to enabled).  The source's
`if (parentFile !== undefined)` guard is always taken here: every call
site passes a path. -/
def execute (env : Env) (settings : IncludeSettings) :
    Nat → String → String → List String → String
  | 0, parentContent, _, _ => parentContent
  | fuel + 1, parentContent, parentFile, processedFiles =>
    let ps := processedFiles ++ [parentFile]
    let parentFolder := env.dirname parentFile
    let c1 :=
      if settings.commonmarkRegex.getD true then
        includeLoop cmExec (execute env settings fuel) env settings fuel
          parentContent parentFolder parentFile ps
      else parentContent
    if settings.markdownItRegex.getD true then
      includeLoop mdExec (execute env settings fuel) env settings fuel
        c1 parentFolder parentFile ps
    else c1

/-!  ### Concrete environments for the scenario theorems -/

/-- POSIX `path.dirname` for the absolute paths used in the scenarios. -/
def posixDirname (p : String) : String :=
  let pre := (p.data.reverse.dropWhile (fun c => !(c = '/'))).reverse
  match pre with
  | [] => "."
  | ['/'] => "/"
  | _ => String.mk pre.dropLast

/-- POSIX `path.basename`. -/
def posixBasename (p : String) : String :=
  String.mk (p.data.reverse.takeWhile (fun c => !(c = '/'))).reverse

/-- POSIX `path.resolve(dir, ref)` for the references used in the
scenarios (absolute reference wins; otherwise join with a separator; no
`..` segments occur). -/
def posixResolve (dir ref : String) : String :=
  match ref.data with
  | '/' :: _ => ref
  | _ =>
    match dir.data.getLast? with
    | some '/' => dir ++ ref
    | _ => dir ++ "/" ++ ref

/-- An environment over the POSIX path model: `paths` lists the files that
exist, `rf` is the filesystem read.  Theorems about files that must never
be read keep `rf` universally quantified. -/
def mkEnv (paths : List String) (rf : String → String) : Env where
  resolvePath := posixResolve
  dirname := posixDirname
  basename := posixBasename
  fileExists := fun p => paths.contains p
  readFile := rf

/-!  ### Helper lemmas -/

theorem replFirstCh_hit (pat rep s : List Char) (h : pat.isPrefixOf s = true) :
    replFirstCh pat rep s = rep ++ s.drop pat.length := by
  cases s <;> simp [replFirstCh, h]

theorem replFirstCh_append (pat rep a b : List Char)
    (h : ∀ i, i < a.length → pat.isPrefixOf ((a ++ (pat ++ b)).drop i) = false) :
    replFirstCh pat rep (a ++ (pat ++ b)) = a ++ (rep ++ b) := by
  induction a with
  | nil =>
    simp only [List.nil_append]
    rw [replFirstCh_hit]
    · rw [List.drop_left]
    · rw [List.isPrefixOf_iff_prefix]
      exact List.prefix_append pat b
  | cons c a2 ih =>
    have h0 : pat.isPrefixOf (c :: (a2 ++ (pat ++ b))) = false := by
      have := h 0 (by simp)
      simpa using this
    show replFirstCh pat rep (c :: (a2 ++ (pat ++ b))) = c :: (a2 ++ (rep ++ b))
    rw [replFirstCh, if_neg (by simp [h0])]
    have ih2 := ih (fun i hi => by
      have := h (i + 1) (by simpa using Nat.succ_lt_succ hi)
      simpa [List.drop_succ_cons] using this)
    rw [ih2]

theorem includeLoop_of_none (pat : String → Option DirectiveMatch)
    (ce : String → String → List String → String) (env : Env)
    (st : IncludeSettings) (fuel : Nat) (c fo fi : String) (ps : List String)
    (h : pat c = none) : includeLoop pat ce env st fuel c fo fi ps = c := by
  cases fuel with
  | zero => rfl
  | succ n => simp [includeLoop, h]

theorem execute_of_no_match (env : Env) (st : IncludeSettings) (fuel : Nat)
    (content f : String) (ps : List String)
    (hA : st.commonmarkRegex.getD true = true → cmExec content = none)
    (hB : st.markdownItRegex.getD true = true → mdExec content = none) :
    execute env st fuel content f ps = content := by
  cases fuel with
  | zero => rfl
  | succ n =>
    show execute env st (n + 1) content f ps = content
    simp only [execute]
    by_cases hc : st.commonmarkRegex.getD true = true
    · rw [if_pos hc, includeLoop_of_none cmExec (execute env st n) env st n content
        (env.dirname f) f (ps ++ [f]) (hA hc)]
      by_cases hm : st.markdownItRegex.getD true = true
      · rw [if_pos hm, includeLoop_of_none mdExec (execute env st n) env st n content
          (env.dirname f) f (ps ++ [f]) (hB hm)]
      · rw [if_neg hm]
    · rw [if_neg hc]
      by_cases hm : st.markdownItRegex.getD true = true
      · rw [if_pos hm, includeLoop_of_none mdExec (execute env st n) env st n content
          (env.dirname f) f (ps ++ [f]) (hB hm)]
      · rw [if_neg hm]

theorem jsSlice_nonneg (xs : List α) (a b : Int) (ha : 0 ≤ a) (hb : 0 ≤ b) :
    jsSlice xs (some a) (some b) = (xs.drop a.toNat).take (b - a).toNat := by
  simp only [jsSlice, jsToInt]
  rw [if_neg (by omega), if_neg (by omega)]
  rcases le_or_lt a (xs.length : Int) with hA | hA
  · rw [min_eq_left hA]
    rcases le_or_lt b (xs.length : Int) with hB | hB
    · rw [min_eq_left hB]
    · rw [min_eq_right (le_of_lt hB)]
      rw [List.take_of_length_le (by rw [List.length_drop]; omega),
        List.take_of_length_le (by rw [List.length_drop]; omega)]
  · rw [min_eq_right (le_of_lt hA)]
    rw [List.drop_eq_nil_of_le (by omega), List.drop_eq_nil_of_le (by omega),
      List.take_nil, List.take_nil]

theorem intercalate_take_one (ys : List String) :
    String.intercalate "\n" (ys.take 1) = ys.headD "" := by
  cases ys <;> rfl

theorem headD_drop (l : List String) (n : Nat) :
    (l.drop n).headD "" = l.getD n "" := by
  rw [List.headD_eq_head?_getD, List.head?_drop, List.getD_eq_getElem?_getD]

theorem citeColGo_eq (w : Int) (ws : List String) :
    ∀ (i cp : Int),
      (w - i).toNat ≤ ws.length →
      (∀ x ∈ ws.take (w - i).toNat, x ≠ "") →
      citeColGo w ws i cp =
        cp + ((ws.take (w - i).toNat).map (fun x => (x.length : Int) + 1)).sum := by
  induction ws with
  | nil =>
    intro i cp hb _
    simp [citeColGo]
  | cons x rest ih =>
    intro i cp hb hne
    by_cases hi : i < w
    · have hk : (w - i).toNat = (w - (i + 1)).toNat + 1 := by omega
      have hxne : x ≠ "" := hne x (by
        rw [hk, List.take_succ_cons]
        exact List.mem_cons_self x _)
      have hlen : 0 < x.length := by
        rcases x with ⟨d⟩
        cases d with
        | nil => exact absurd rfl hxne
        | cons c cs => simp [String.length]
      have hcond : (decide (i < w - 1) || decide (x.length > 0)) = true := by
        rw [decide_eq_true hlen, Bool.or_true]
      rw [citeColGo, if_pos hi, if_pos hcond, hk, List.take_succ_cons,
        ih (i + 1) (cp + (x.length : Int) + 1)
          (by simp only [List.length_cons] at hb; omega)
          (fun y hy => hne y (by
            rw [hk, List.take_succ_cons]
            exact List.mem_cons_of_mem x hy))]
      simp only [List.map_cons, List.sum_cons]
      ring
    · have hk0 : (w - i).toNat = 0 := by omega
      rw [citeColGo, if_neg hi, hk0]
      simp

theorem citeColGo_stop (w : Int) (ws : List String) (i cp : Int) (h : ¬ i < w) :
    citeColGo w ws i cp = cp := by
  cases ws with
  | nil => rfl
  | cons x rest => rw [citeColGo, if_neg h]

theorem citeColGo_append_full (w : Int) (ws2 : List String) :
    ∀ (ws1 : List String) (i cp : Int),
      (∀ x ∈ ws1, x ≠ "") →
      i + (ws1.length : Int) ≤ w →
      citeColGo w (ws1 ++ ws2) i cp =
        citeColGo w ws2 (i + (ws1.length : Int))
          (cp + (ws1.map (fun x => (x.length : Int) + 1)).sum) := by
  intro ws1
  induction ws1 with
  | nil =>
    intro i cp _ _
    simp
  | cons x t ih =>
    intro i cp hne hb
    have hb2 : i + ((x :: t).length : Int) ≤ w := hb
    simp only [List.length_cons] at hb2
    have hi : i < w := by push_cast at hb2; omega
    have hxne : x ≠ "" := hne x (List.mem_cons_self x t)
    have hlen : 0 < x.length := by
      rcases x with ⟨d⟩
      cases d with
      | nil => exact absurd rfl hxne
      | cons c cs => simp [String.length]
    have hcond : (decide (i < w - 1) || decide (x.length > 0)) = true := by
      rw [decide_eq_true hlen, Bool.or_true]
    rw [List.cons_append, citeColGo, if_pos hi, if_pos hcond,
      ih (i + 1) (cp + (x.length : Int) + 1)
        (fun y hy => hne y (List.mem_cons_of_mem x hy))
        (by push_cast at hb2 ⊢; omega)]
    have harg1 : (i + 1) + (t.length : Int) = i + (((x :: t).length : Int)) := by
      simp only [List.length_cons]
      push_cast
      ring
    have harg2 : cp + (x.length : Int) + 1 + (t.map (fun x => (x.length : Int) + 1)).sum =
        cp + (((x :: t).map (fun x => (x.length : Int) + 1)).sum) := by
      simp only [List.map_cons, List.sum_cons]
      ring
    rw [harg1, harg2]

/-!  ### Claim theorems -/

/-- C7: running the expander on text containing no directive of either
enabled syntax returns the text unchanged; and whenever a run's output
again contains no directive of either enabled syntax (the normal,
non-pathological case), running the expander a second time yields the
same result as running it once. -/
theorem claim_C7_theorem :
    (∀ (env : Env) (st : IncludeSettings) (fuel : Nat) (content f : String)
        (ps : List String),
        (st.commonmarkRegex.getD true = true → cmExec content = none) →
        (st.markdownItRegex.getD true = true → mdExec content = none) →
        execute env st fuel content f ps = content)
    ∧ (∀ (env : Env) (st : IncludeSettings) (fuel fuel2 : Nat) (content f f2 : String)
        (ps ps2 : List String),
        (st.commonmarkRegex.getD true = true →
          cmExec (execute env st fuel content f ps) = none) →
        (st.markdownItRegex.getD true = true →
          mdExec (execute env st fuel content f ps) = none) →
        execute env st fuel2 (execute env st fuel content f ps) f2 ps2 =
          execute env st fuel content f ps) :=
  ⟨fun env st fuel content f ps hA hB =>
    execute_of_no_match env st fuel content f ps hA hB,
   fun env st fuel fuel2 content f f2 ps ps2 hA hB =>
    execute_of_no_match env st fuel2 (execute env st fuel content f ps) f2 ps2 hA hB⟩

/-- C7 witness: a concrete directive-free text is returned unchanged. -/
theorem claim_C7_witness :
    (defaultSettings.commonmarkRegex.getD true = true → cmExec "hello world" = none)
    ∧ execute (mkEnv [] (fun _ => "")) defaultSettings 3 "hello world" "/r.md" []
        = "hello world" :=
  ⟨fun _ => by decide,
   claim_C7_theorem.1 (mkEnv [] (fun _ => "")) defaultSettings 3 "hello world" "/r.md" []
     (fun _ => by decide) (fun _ => by decide)⟩

/-- C3: a document whose only directive resolves to the document's own
path expands to the circular-reference template substituted exactly once,
with both placeholders filled with that path; the target file is not read
(the filesystem read `rf` is universally quantified and never consulted)
and not recursively expanded. -/
theorem claim_C3_theorem :
    ∀ rf : String → String,
      execute (mkEnv ["/a.md"] rf) defaultSettings 12 ":(a.md)" "/a.md" [] =
        "Circular reference between \x27/a.md\x27 and \x27/a.md\x27" :=
  fun _ => rfl

/-- C2: every recursion step hands each child a copy of the parent's
processed list extended with the parent's own path (first conjunct, the
copy-on-recurse mechanism); consequently mutual inclusion is reported as
circular (third conjunct) while a diamond — root includes A and B, both
include C — expands C fully in both places with no circular message
(second conjunct). -/
theorem claim_C2_theorem :
    (∀ (env : Env) (st : IncludeSettings) (fuel : Nat) (content f : String)
        (ps : List String),
        execute env st (fuel + 1) content f ps =
          (let ps2 := ps ++ [f]
           let folder := env.dirname f
           let c1 :=
             if st.commonmarkRegex.getD true then
               includeLoop cmExec (execute env st fuel) env st fuel content folder f ps2
             else content
           if st.markdownItRegex.getD true then
             includeLoop mdExec (execute env st fuel) env st fuel c1 folder f ps2
           else c1))
    ∧ execute (mkEnv ["/a.md", "/b.md", "/c.md"]
        (fun p => if p == "/c.md" then "C one\nC two" else ":(c.md)"))
        defaultSettings 12 ":(a.md):(b.md)" "/r.md" [] = "C one\nC twoC one\nC two"
    ∧ execute (mkEnv ["/a.md", "/b.md"]
        (fun p => if p == "/b.md" then ":(a.md)" else ":(b.md)"))
        defaultSettings 12 ":(b.md)" "/a.md" [] =
        "Circular reference between \x27/a.md\x27 and \x27/b.md\x27" :=
  ⟨fun _ _ _ _ _ _ => rfl, by decide, by decide⟩

/-- C4: a directive whose resolved target does not exist is replaced by
the not-found template with the placeholder filled with the resolved path
(first conjunct, for every environment and settings); the missing file is
not read (`rf` universally quantified, consulted only for the existing
sibling) and processing continues with the rest of the document (second
conjunct: the later directive still expands). -/
theorem claim_C4_theorem :
    (∀ (ce : String → String → List String → String) (env : Env)
        (st : IncludeSettings) (idx len : Nat)
        (parent folder pf cn nf cm : String) (ps : List String)
        (sl el qo : Option String),
        env.fileExists (env.resolvePath folder cn) = false →
        replaceDirective ce env st idx len parent folder pf cn nf cm ps sl el qo =
          spliceAt parent idx len
            (jsReplace nf FILE_PLACEHOLDER (env.resolvePath folder cn)))
    ∧ (∀ rf : String → String,
        execute (mkEnv ["/b.md"] (fun p => if p == "/b.md" then "BBB" else rf p))
          defaultSettings 12 ":(missing.md):(b.md)" "/r.md" [] =
          "File \x27/missing.md\x27 not foundBBB") := by
  constructor
  · intro ce env st idx len parent folder pf cn nf cm ps sl el qo h
    simp only [replaceDirective]
    rw [if_pos h]
  · intro rf
    rfl

/-- C4 witness: the not-found equation at a concrete missing target. -/
theorem claim_C4_witness :
    (mkEnv [] (fun _ => "")).fileExists
        ((mkEnv [] (fun _ => "")).resolvePath "/d" "x.md") = false
    ∧ replaceDirective (fun c _ _ => c) (mkEnv [] (fun _ => "")) defaultSettings
        1 7 "A:(x.md)B" "/d" "/d/p.md" "x.md" DEFAULT_NOT_FOUND_MESSAGE
        DEFAULT_CIRCULAR_MESSAGE [] none none none =
      spliceAt "A:(x.md)B" 1 7
        (jsReplace DEFAULT_NOT_FOUND_MESSAGE FILE_PLACEHOLDER
          ((mkEnv [] (fun _ => "")).resolvePath "/d" "x.md")) :=
  ⟨by decide,
   claim_C4_theorem.1 (fun c _ _ => c) (mkEnv [] (fun _ => "")) defaultSettings
     1 7 "A:(x.md)B" "/d" "/d/p.md" "x.md" DEFAULT_NOT_FOUND_MESSAGE
     DEFAULT_CIRCULAR_MESSAGE [] none none none (by decide)⟩

/-- C10: not-found and circular substitutions are the plain filled
templates spliced in: for every settings object and quote override the
result of the respective branch contains no quote formatting and no
citation (the right-hand sides are independent of the quote configuration
and of `formatQuote`). -/
theorem claim_C10_theorem :
    (∀ (ce : String → String → List String → String) (env : Env)
        (st : IncludeSettings) (idx len : Nat)
        (parent folder pf cn nf cm : String) (ps : List String)
        (sl el qo : Option String),
        env.fileExists (env.resolvePath folder cn) = false →
        replaceDirective ce env st idx len parent folder pf cn nf cm ps sl el qo =
          spliceAt parent idx len
            (jsReplace nf FILE_PLACEHOLDER (env.resolvePath folder cn)))
    ∧ (∀ (ce : String → String → List String → String) (env : Env)
        (st : IncludeSettings) (idx len : Nat)
        (parent folder pf cn nf cm : String) (ps : List String)
        (sl el qo : Option String),
        env.fileExists (env.resolvePath folder cn) = true →
        ps.contains (env.resolvePath folder cn) = true →
        replaceDirective ce env st idx len parent folder pf cn nf cm ps sl el qo =
          spliceAt parent idx len
            (jsReplace
              (jsReplace cm FILE_PLACEHOLDER (env.resolvePath folder cn))
              PARENT_PLACEHOLDER pf)) := by
  constructor
  · intro ce env st idx len parent folder pf cn nf cm ps sl el qo h
    simp only [replaceDirective]
    rw [if_pos h]
  · intro ce env st idx len parent folder pf cn nf cm ps sl el qo h1 h2
    simp only [replaceDirective]
    rw [if_neg (by simp [h1]), if_pos h2]

/-- C10 witness: the circular branch at a concrete ancestor chain, with
quoting globally enabled and a `quote` override — the substitution is
still the unquoted template. -/
theorem claim_C10_witness :
    ((mkEnv ["/a.md"] (fun _ => "")).fileExists
        ((mkEnv ["/a.md"] (fun _ => "")).resolvePath "/" "a.md") = true)
    ∧ replaceDirective (fun c _ _ => c) (mkEnv ["/a.md"] (fun _ => ""))
        { quoteFormatting := some true } 0 7 ":(a.md)" "/" "/a.md" "a.md"
        DEFAULT_NOT_FOUND_MESSAGE DEFAULT_CIRCULAR_MESSAGE ["/a.md"]
        none none (some "quote") =
      spliceAt ":(a.md)" 0 7
        (jsReplace
          (jsReplace DEFAULT_CIRCULAR_MESSAGE FILE_PLACEHOLDER
            ((mkEnv ["/a.md"] (fun _ => "")).resolvePath "/" "a.md"))
          PARENT_PLACEHOLDER "/a.md") :=
  ⟨by decide,
   claim_C10_theorem.2 (fun c _ _ => c) (mkEnv ["/a.md"] (fun _ => ""))
     { quoteFormatting := some true } 0 7 ":(a.md)" "/" "/a.md" "a.md"
     DEFAULT_NOT_FOUND_MESSAGE DEFAULT_CIRCULAR_MESSAGE ["/a.md"]
     none none (some "quote") (by decide) (by decide)⟩

/-- C9: `replace` with a string pattern rewrites only the first
occurrence: if the pattern first occurs after a prefix `a`, the occurrence
is replaced and everything after it — including further copies of the
placeholder — is kept verbatim (first two conjuncts); concretely, message
templates holding the same placeholder twice keep the second copy, for
the not-found and the circular substitution (last two conjuncts). -/
theorem claim_C9_theorem :
    (∀ (pat rep a b : List Char),
        (∀ i, i < a.length → pat.isPrefixOf ((a ++ (pat ++ b)).drop i) = false) →
        replFirstCh pat rep (a ++ (pat ++ b)) = a ++ (rep ++ b))
    ∧ (∀ (s pat rep : String) (a b : List Char),
        s.data = a ++ (pat.data ++ b) →
        (∀ i, i < a.length → pat.data.isPrefixOf ((a ++ (pat.data ++ b)).drop i) = false) →
        jsReplace s pat rep = String.mk (a ++ (rep.data ++ b)))
    ∧ execute (mkEnv [] (fun _ => ""))
        { notFoundMessage := some "A \x7b\x7bFILE\x7d\x7d B \x7b\x7bFILE\x7d\x7d" }
        12 ":(m.md)" "/r.md" [] = "A /m.md B \x7b\x7bFILE\x7d\x7d"
    ∧ execute (mkEnv ["/a.md"] (fun _ => ""))
        { circularMessage :=
            some "C \x7b\x7bFILE\x7d\x7d \x7b\x7bPARENT\x7d\x7d \x7b\x7bFILE\x7d\x7d \x7b\x7bPARENT\x7d\x7d" }
        12 ":(a.md)" "/a.md" [] =
        "C /a.md /a.md \x7b\x7bFILE\x7d\x7d \x7b\x7bPARENT\x7d\x7d" := by
  refine ⟨replFirstCh_append, ?_, by decide, by decide⟩
  intro s pat rep a b hdata h
  unfold jsReplace
  rw [hdata, replFirstCh_append pat.data rep.data a b h]

/-- C9 witness: the first-occurrence law at a concrete split. -/
theorem claim_C9_witness :
    (∀ i, i < 2 → "bc".data.isPrefixOf (("ab".data ++ ("bc".data ++ "bc".data)).drop i) = false)
    ∧ replFirstCh "bc".data "z".data ("ab".data ++ ("bc".data ++ "bc".data)) =
        "ab".data ++ ("z".data ++ "bc".data) :=
  ⟨by decide, claim_C9_theorem.1 "bc".data "z".data "ab".data "bc".data (by decide)⟩

/-- C6 counterexample: with quoting forced by an explicit `quote`
modifier, a child file containing a blank line does not have every output
line prefixed by the two-character marker `> ` — the blank line becomes a
bare `>`. -/
theorem claim_C6_counterexample :
    ((splitLinesJS (execute (mkEnv ["/f.md"] (fun _ => "a\n\nb")) defaultSettings 12
        ":(f.md){quote}" "/r.md" [])).all
      (fun l => List.isPrefixOf "> ".data l.data)) = false := by
  decide

/-- C6 (amended): an explicit `quote` modifier forces quote formatting for
every settings object — in particular with the global `quoteFormatting`
false — and an explicit `noquote` modifier suppresses it for every
settings object (first two conjuncts); when quoting applies, each line of
the expanded child content that is non-empty after trimming is prefixed
with `> `, while a line that is empty after trimming becomes a bare `>`
(third and fourth conjuncts, concretely through the whole pipeline). -/
theorem claim_C6_theorem :
    (∀ (ce : String → String → List String → String) (env : Env)
        (st : IncludeSettings) (idx len : Nat)
        (parent folder pf cn nf cm : String) (ps : List String)
        (sl el : Option String),
        env.fileExists (env.resolvePath folder cn) = true →
        ps.contains (env.resolvePath folder cn) = false →
        replaceDirective ce env st idx len parent folder pf cn nf cm ps sl el
            (some "quote") =
          spliceAt parent idx len
            (formatQuote env
              (ce (sliceLines (env.readFile (env.resolvePath folder cn)) sl el)
                (env.resolvePath folder cn) ps)
              (env.resolvePath folder cn)
              (jsOrStr st.quoteSourceLabel DEFAULT_QUOTE_SOURCE_LABEL)
              (st.quoteIncludeSource.getD true) sl
              (some (env.readFile (env.resolvePath folder cn)))))
    ∧ (∀ (ce : String → String → List String → String) (env : Env)
        (st : IncludeSettings) (idx len : Nat)
        (parent folder pf cn nf cm : String) (ps : List String)
        (sl el : Option String),
        env.fileExists (env.resolvePath folder cn) = true →
        ps.contains (env.resolvePath folder cn) = false →
        replaceDirective ce env st idx len parent folder pf cn nf cm ps sl el
            (some "noquote") =
          spliceAt parent idx len
            (ce (sliceLines (env.readFile (env.resolvePath folder cn)) sl el)
              (env.resolvePath folder cn) ps))
    ∧ execute (mkEnv ["/f.md"] (fun _ => "a\n\nb")) defaultSettings 12
        ":(f.md){quote}" "/r.md" [] =
        "> a\n>\n> b\n> \n> *Source: [f.md](<vscode://file//f.md:1:1>)*"
    ∧ execute (mkEnv ["/f.md"] (fun _ => "a\n\nb")) { quoteFormatting := some true } 12
        ":(f.md){noquote}" "/r.md" [] = "a\n\nb" := by
  refine ⟨?_, ?_, by decide, by decide⟩
  · intro ce env st idx len parent folder pf cn nf cm ps sl el h1 h2
    simp only [replaceDirective]
    rw [if_neg (by simp [h1]), if_neg (by simp only [h2]; exact Bool.false_ne_true),
      if_pos (by decide)]
  · intro ce env st idx len parent folder pf cn nf cm ps sl el h1 h2
    simp only [replaceDirective]
    rw [if_neg (by simp [h1]), if_neg (by simp only [h2]; exact Bool.false_ne_true),
      if_neg (by decide)]

/-- C6 witness: the forced-quote equation at a concrete directive with the
global `quoteFormatting` false. -/
theorem claim_C6_witness :
    ((mkEnv ["/f.md"] (fun _ => "a b")).fileExists
        ((mkEnv ["/f.md"] (fun _ => "a b")).resolvePath "/" "f.md") = true)
    ∧ replaceDirective (fun c (_ : String) (_ : List String) => c)
        (mkEnv ["/f.md"] (fun _ => "a b"))
        { quoteFormatting := some false } 0 14 ":(f.md){quote}" "/" "/r.md" "f.md"
        DEFAULT_NOT_FOUND_MESSAGE DEFAULT_CIRCULAR_MESSAGE ([] : List String) none none
        (some "quote") =
      spliceAt ":(f.md){quote}" 0 14
        (formatQuote (mkEnv ["/f.md"] (fun _ => "a b"))
          (sliceLines
            ((mkEnv ["/f.md"] (fun _ => "a b")).readFile
              ((mkEnv ["/f.md"] (fun _ => "a b")).resolvePath "/" "f.md"))
            none none)
          ((mkEnv ["/f.md"] (fun _ => "a b")).resolvePath "/" "f.md")
          (jsOrStr ({ quoteFormatting := some false } : IncludeSettings).quoteSourceLabel
            DEFAULT_QUOTE_SOURCE_LABEL)
          (({ quoteFormatting := some false } : IncludeSettings).quoteIncludeSource.getD true)
          none
          (some ((mkEnv ["/f.md"] (fun _ => "a b")).readFile
            ((mkEnv ["/f.md"] (fun _ => "a b")).resolvePath "/" "f.md")))) :=
  ⟨by decide,
   claim_C6_theorem.1 (fun c _ _ => c) (mkEnv ["/f.md"] (fun _ => "a b"))
     { quoteFormatting := some false } 0 14 ":(f.md){quote}" "/" "/r.md" "f.md"
     DEFAULT_NOT_FOUND_MESSAGE DEFAULT_CIRCULAR_MESSAGE [] none none
     (by decide) (by decide)⟩

/-- C1 counterexample: on the three-line input, start spec `1` with end
spec `3` yields all three lines (not the first two), and an end line
number equal to the start line number yields exactly the start line (not
an empty selection). -/
theorem claim_C1_counterexample :
    (¬ sliceLines "a b c\nd e f\ng h i" (some "1") (some "3") = "a b c\nd e f")
    ∧ ¬ sliceLines "a b c\nd e f\ng h i" (some "1") (some "1") = "" := by
  constructor <;> decide

/-- C1 (amended): when an end spec with line number `M` is given, `M` is
used directly as an exclusive bound on 0-based line indices, so the
selection is 0-based lines `[startNumber − 1, M)` — equivalently 1-based
lines `startNumber` through `M` inclusive (first conjunct, for every text
and pure line specs).  Concretely: start `1` end `3` yields the whole
three-line input; an end line number equal to the start line number
yields exactly the start line; an end line number strictly smaller than
the start line number yields an empty selection. -/
theorem claim_C1_theorem :
    (∀ (content sp ep : String) (s m : Int),
        jsTruthy (some sp) = true →
        splitOnChar '.' sp = [sp] →
        jsParseInt sp = some s →
        1 ≤ s →
        jsTruthy (some ep) = true →
        splitOnChar '.' ep = [ep] →
        jsParseInt ep = some m →
        0 ≤ m →
        sliceLines content (some sp) (some ep) =
          String.intercalate "\n"
            (((splitLinesJS content).drop (s - 1).toNat).take (m - (s - 1)).toNat))
    ∧ sliceLines "a b c\nd e f\ng h i" (some "1") (some "3") = "a b c\nd e f\ng h i"
    ∧ sliceLines "a b c\nd e f\ng h i" (some "1") (some "1") = "a b c"
    ∧ sliceLines "a b c\nd e f\ng h i" (some "2") (some "1") = "" := by
  refine ⟨?_, by decide, by decide, by decide⟩
  intro content sp ep s m hT1 hp1 hs h1 hT2 hp2 hm h0
  unfold sliceLines
  rw [hT1]
  simp only [Bool.not_true, Bool.false_eq_true, if_false, Option.getD_some,
    hp1, hp2, hT2, if_true, hs, hm, jsSub, List.headD_cons, List.length_cons,
    List.length_nil, Nat.lt_irrefl, gt_iff_lt, if_false]
  rw [jsSlice_nonneg (splitLinesJS content) (s - 1) m (by omega) h0]
  simp only [jsGtZero, Option.isSome_none, Bool.or_false, decide_eq_true_eq]
  by_cases hy : (((splitLinesJS content).drop (s - 1).toNat).take (m - (s - 1)).toNat).isEmpty = true
  · rw [if_pos hy, List.isEmpty_iff.mp hy]
    rfl
  · rw [if_neg hy, if_neg (show ¬ (0 : Int) < 0 by omega)]

/-- C1 witness: the line-range law at concrete specs `2`–`3`. -/
theorem claim_C1_witness :
    (1 : Int) ≤ 2
    ∧ sliceLines "p q\nr s\nt u\nv w" (some "2") (some "3") =
        String.intercalate "\n"
          (((splitLinesJS "p q\nr s\nt u\nv w").drop ((2 : Int) - 1).toNat).take
            ((3 : Int) - ((2 : Int) - 1)).toNat) :=
  ⟨by decide,
   claim_C1_theorem.1 "p q\nr s\nt u\nv w" "2" "3" 2 3 (by decide) (by decide)
     (by decide) (by decide) (by decide) (by decide) (by decide) (by decide)⟩

/-- C5: an absent end spec selects exactly the single start line with no
word truncation (first conjunct, for every text and pure line start
spec); word indices are 0-based over whitespace-delimited words with an
exclusive end-word bound (remaining conjuncts: `2` with no end yields
`d e f`; `1.1`–`1.2` yields `b`; `1.0`–`1.2` yields `a b`; `1.2` with no
end keeps the start line's words from index 2 on with no end
truncation). -/
theorem claim_C5_theorem :
    (∀ (content sp : String) (s : Int),
        jsTruthy (some sp) = true →
        splitOnChar '.' sp = [sp] →
        jsParseInt sp = some s →
        1 ≤ s →
        sliceLines content (some sp) none =
          (splitLinesJS content).getD (s - 1).toNat "")
    ∧ sliceLines "a b c\nd e f\ng h i" (some "2") none = "d e f"
    ∧ sliceLines "a b c\nd e f\ng h i" (some "1.1") (some "1.2") = "b"
    ∧ sliceLines "a b c" (some "1.0") (some "1.2") = "a b"
    ∧ sliceLines "a b c" (some "1.2") none = "c" := by
  refine ⟨?_, by decide, by decide, by decide, by decide⟩
  intro content sp s hT1 hp1 hs h1
  unfold sliceLines
  rw [hT1]
  simp only [Bool.not_true, Bool.false_eq_true, if_false, Option.getD_some,
    hp1, hs, jsSub, jsAdd, jsTruthy, List.headD_cons, List.length_cons,
    List.length_nil, Nat.lt_irrefl, gt_iff_lt, if_false]
  rw [jsSlice_nonneg (splitLinesJS content) (s - 1) (s - 1 + 1) (by omega) (by omega)]
  have htake : (s - 1 + 1 - (s - 1) : Int).toNat = 1 := by omega
  rw [htake]
  simp only [jsGtZero, Option.isSome_none, Bool.or_false, decide_eq_true_eq]
  by_cases hy : (((splitLinesJS content).drop (s - 1).toNat).take 1).isEmpty = true
  · rw [if_pos hy]
    have h2 := List.isEmpty_iff.mp hy
    have h3 : (splitLinesJS content).drop (s - 1).toNat = [] := by
      rcases List.take_eq_nil_iff.mp h2 with h | h
      · exact absurd h (by omega)
      · exact h
    rw [← headD_drop, h3]
    rfl
  · rw [if_neg hy, if_neg (show ¬ (0 : Int) < 0 by omega),
      intercalate_take_one, headD_drop]

/-- C5 witness: the single-start-line law at concrete spec `3`. -/
theorem claim_C5_witness :
    (1 : Int) ≤ 3
    ∧ sliceLines "p q\nr s\nt u\nv w" (some "3") none =
        (splitLinesJS "p q\nr s\nt u\nv w").getD ((3 : Int) - 1).toNat "" :=
  ⟨by decide,
   claim_C5_theorem.1 "p q\nr s\nt u\nv w" "3" 3 (by decide) (by decide)
     (by decide) (by decide)⟩

/-- C8 counterexample: on a line with leading or trailing whitespace the
word split yields an empty segment, and the code adds no separating space
for an empty last consumed word, so the column differs from the claimed
accumulate-length-plus-one-space-per-word total: for original line
` abc` with spec `1.1` the code yields column 1 while the claimed sum
gives 2, and for `ab ` with spec `1.2` the code yields 4 while the
claimed sum gives 5. -/
theorem claim_C8_counterexample :
    citePosition (some "1.1") (some " abc") ≠
      ("1", toString (1 +
        (((jsSplitWs ((splitLinesJS " abc").getD ((1 : Int) - 1).toNat "")).take
            (1 : Int).toNat).map (fun x => (x.length : Int) + 1)).sum))
    ∧ citePosition (some "1.2") (some "ab ") ≠
      ("1", toString (1 +
        (((jsSplitWs ((splitLinesJS "ab ").getD ((1 : Int) - 1).toNat "")).take
            (2 : Int).toNat).map (fun x => (x.length : Int) + 1)).sum)) := by
  constructor <;> decide

/-- C8 (amended): the citation's column number defaults to `1` — with no
start spec and with a start spec carrying no word part (first two
conjuncts); when the start spec carries word offset `W`, the column is
computed by walking the original un-sliced file's start line word by word
(words as produced by the whitespace-run split, which yields an empty
segment for leading or trailing whitespace), accumulating each of the
first `W` words' character lengths plus one separating space per consumed
word (third conjunct), except that an empty last consumed word — the
empty segment of an indented or trailing-whitespace line — contributes
neither length nor separating space (fourth conjunct); the resulting
line and column are embedded in the citation link appended by
`formatQuote` (fifth conjunct). -/
theorem claim_C8_theorem :
    (∀ oc : Option String, citePosition none oc = ("1", "1"))
    ∧ (∀ (sl : String) (oc : Option String),
        jsTruthy (some sl) = true →
        splitOnChar '.' sl = [sl] →
        citePosition (some sl) oc = (sl, "1"))
    ∧ (∀ (sl l0 w0 oc : String) (L W : Int),
        jsTruthy (some sl) = true →
        splitOnChar '.' sl = [l0, w0] →
        jsTruthy (some oc) = true →
        jsParseInt l0 = some L →
        jsParseInt w0 = some W →
        0 ≤ L - 1 →
        L - 1 < ((splitLinesJS oc).length : Int) →
        W.toNat ≤ (jsSplitWs ((splitLinesJS oc).getD (L - 1).toNat "")).length →
        (∀ x ∈ (jsSplitWs ((splitLinesJS oc).getD (L - 1).toNat "")).take W.toNat,
          x ≠ "") →
        citePosition (some sl) (some oc) =
          (l0, toString (1 +
            (((jsSplitWs ((splitLinesJS oc).getD (L - 1).toNat "")).take W.toNat).map
              (fun x => (x.length : Int) + 1)).sum)))
    ∧ (∀ (sl l0 w0 oc : String) (L W : Int) (ws1 rest : List String),
        jsTruthy (some sl) = true →
        splitOnChar '.' sl = [l0, w0] →
        jsTruthy (some oc) = true →
        jsParseInt l0 = some L →
        jsParseInt w0 = some W →
        0 ≤ L - 1 →
        L - 1 < ((splitLinesJS oc).length : Int) →
        jsSplitWs ((splitLinesJS oc).getD (L - 1).toNat "") = ws1 ++ ("" :: rest) →
        (∀ x ∈ ws1, x ≠ "") →
        (ws1.length : Int) = W - 1 →
        citePosition (some sl) (some oc) =
          (l0, toString (1 + (ws1.map (fun x => (x.length : Int) + 1)).sum)))
    ∧ (∀ (env : Env) (content p lbl : String) (sl oc : Option String),
        formatQuote env content p lbl true sl oc =
          String.intercalate "\n"
            ((splitLinesJS content).map
              (fun line => if (jsTrim line).data.isEmpty then ">" else "> " ++ line))
          ++ "\n> \n> " ++
          ("*" ++ lbl ++ ": [" ++ env.basename p ++ "](<" ++
            ("vscode://file/" ++
              String.mk (p.data.map (fun c => if c = '\\' then '/' else c)) ++ ":" ++
              (citePosition sl oc).1 ++ ":" ++ (citePosition sl oc).2) ++ ">)*")) := by
  refine ⟨fun _ => rfl, ?_, ?_, ?_, fun _ _ _ _ _ _ => rfl⟩
  · intro sl oc hT hp
    unfold citePosition
    rw [hT]
    simp only [Bool.not_true, Bool.false_eq_true, if_false, Option.getD_some, hp,
      List.headD_cons, List.length_cons, List.length_nil]
    rw [if_neg (by simp)]
  · intro sl l0 w0 oc L W hT hp hToc hL hW h0L hlt hWb hwne
    unfold citePosition
    rw [hT]
    simp only [Bool.not_true, Bool.false_eq_true, if_false, Option.getD_some, hp,
      List.headD_cons, List.length_cons, List.length_nil, List.getD_cons_succ,
      List.getD_cons_zero, hL, hW, jsSub, hToc]
    rw [if_pos (by simp)]
    rw [if_pos (by rw [decide_eq_true h0L, decide_eq_true hlt, Bool.and_true])]
    have hb0 : (W - 0).toNat ≤ (jsSplitWs ((splitLinesJS oc).getD (L - 1).toNat "")).length := by
      simpa using hWb
    have hne0 : ∀ x ∈ (jsSplitWs ((splitLinesJS oc).getD (L - 1).toNat "")).take (W - 0).toNat,
        x ≠ "" := by
      simpa using hwne
    rw [citeColGo_eq W (jsSplitWs ((splitLinesJS oc).getD (L - 1).toNat "")) 0 1 hb0 hne0]
    simp only [sub_zero]
  · intro sl l0 w0 oc L W ws1 rest hT hp hToc hL hW h0L hlt hsplit hall hlen1
    unfold citePosition
    rw [hT]
    simp only [Bool.not_true, Bool.false_eq_true, if_false, Option.getD_some, hp,
      List.headD_cons, List.length_cons, List.length_nil, List.getD_cons_succ,
      List.getD_cons_zero, hL, hW, jsSub, hToc]
    rw [if_pos (by simp)]
    rw [if_pos (by rw [decide_eq_true h0L, decide_eq_true hlt, Bool.and_true])]
    rw [hsplit, citeColGo_append_full W ("" :: rest) ws1 0 1 hall (by omega)]
    have harg : (0 : Int) + (ws1.length : Int) = W - 1 := by omega
    rw [harg, citeColGo, if_pos (by omega), if_neg (by simp [String.length]),
      show (W - 1 + 1 : Int) = W from by ring,
      citeColGo_stop W rest W _ (by omega),
      show ((("" : String).length : Nat) : Int) = 0 from rfl, add_zero, add_zero]

/-- C8 witness: the amended column laws at concrete inputs — start spec
`1.2` against the all-words line `aa bbb c` (column lands at character 8,
where word 2 begins), and start spec `1.1` against the indented line
` abc`, whose empty leading segment contributes nothing. -/
theorem claim_C8_witness :
    jsParseInt "2" = some 2
    ∧ citePosition (some "1.2") (some "aa bbb c") =
        ("1", toString (1 +
          (((jsSplitWs ((splitLinesJS "aa bbb c").getD ((1 : Int) - 1).toNat "")).take
              (2 : Int).toNat).map (fun x => (x.length : Int) + 1)).sum))
    ∧ citePosition (some "1.1") (some " abc") =
        ("1", toString (1 +
          (([] : List String).map (fun x => (x.length : Int) + 1)).sum)) :=
  ⟨by decide,
   claim_C8_theorem.2.2.1 "1.2" "1" "2" "aa bbb c" 1 2 (by decide) (by decide)
     (by decide) (by decide) (by decide) (by decide) (by decide) (by decide)
     (by decide),
   claim_C8_theorem.2.2.2.1 "1.1" "1" "1" " abc" 1 1 [] ["abc"] (by decide)
     (by decide) (by decide) (by decide) (by decide) (by decide) (by decide)
     (by decide) (by decide) (by decide)⟩

example : sliceLines "a b c\nd e f\ng h i" (some "2") none = "d e f" := by decide
example : sliceLines "a b c\nd e f\ng h i" (some "1.1") (some "1.2") = "b" := by decide
example : sliceLines "a b c\nd e f\ng h i" (some "1") (some "3") = "a b c\nd e f\ng h i" := by decide
example : sliceLines "a b c\nd e f\ng h i" (some "1") (some "2") = "a b c\nd e f" := by decide
example : sliceLines "a b c\nd e f\ng h i" (some "2") (some "1") = "" := by decide
example : sliceLines "a b c\nd e f\ng h i" (some "1") (some "1") = "a b c" := by decide

end MPI
